import Mathlib

/-!
Verification of the meccz geodesic engine and its boundaries.

* `src/qibla.rs` — bearing, distance, bearing classification and the
  16-entry compass table (`GreatCircleCalculator`).
* `src/geocoding.rs` — `parse_coordinates`, the strict numeric-pair parser.
* `src/ffi.rs` — `calculate_qibla_ffi`, the validating foreign boundary.

Rust `f64` values are modelled as real numbers (ideal real arithmetic).
`f64::atan2(y, x)` is modelled by `Complex.arg ⟨x, y⟩`, which satisfies the
same piecewise-arctan definition with range (-π, π] and maps (0, 0) to 0.
The Rust `%` operator on floats (remainder with round-toward-zero division)
is modelled explicitly by `frem`.  The coordinate parser manipulates decimal
text, whose values are exact rationals, so it is modelled computably over ℚ.
-/

open Real

namespace Meccz

/-- `Location` from src/interfaces.rs (latitude/longitude in degrees). -/
structure Location where
  latitude : ℝ
  longitude : ℝ

/-- `QiblaDirection` from src/interfaces.rs. -/
structure QiblaDirection where
  bearing : ℝ
  direction : String
  distance_km : ℝ

/-- `CompassEntry` from src/interfaces.rs. -/
structure CompassEntry where
  direction : String
  bearing : ℝ
  angular_difference : ℝ
  short_path_distance_km : ℝ
  long_path_distance_km : ℝ
  is_optimal_direction : Bool

/-- `CompassTable` from src/interfaces.rs. -/
structure CompassTable where
  location : Location
  qibla_bearing : ℝ
  direct_distance_km : ℝ
  entries : List CompassEntry

/-- `KAABA_LATITUDE` from src/qibla.rs. -/
def KAABA_LATITUDE : ℝ := 21.4225

/-- `KAABA_LONGITUDE` from src/qibla.rs. -/
def KAABA_LONGITUDE : ℝ := 39.8262

/-- `EARTH_RADIUS_KM` from src/qibla.rs. -/
def EARTH_RADIUS_KM : ℝ := 6371

/-- `GreatCircleCalculator::to_radians`. -/
noncomputable def to_radians (degrees : ℝ) : ℝ := degrees * π / 180

/-- `GreatCircleCalculator::to_degrees`. -/
noncomputable def to_degrees (radians : ℝ) : ℝ := radians * 180 / π

/-- Round-toward-zero integer part, the division convention underlying the
Rust `%` operator on `f64`. -/
noncomputable def rtrunc (x : ℝ) : ℤ := if 0 ≤ x then ⌊x⌋ else ⌈x⌉

/-- The Rust `%` remainder on floats: `x - y * trunc (x / y)` (result has
the sign of the dividend, magnitude below `|y|`). -/
noncomputable def frem (x y : ℝ) : ℝ := x - y * rtrunc (x / y)

/-- `GreatCircleCalculator::normalize_bearing`. -/
noncomputable def normalize_bearing (bearing : ℝ) : ℝ :=
  let normalized := frem bearing 360
  if normalized < 0 then normalized + 360 else normalized

/-- `GreatCircleCalculator::bearing_to_direction` (the guarded `match` on
the bearing, in source order, with the defensive `"N"` fallback). -/
noncomputable def bearing_to_direction (bearing : ℝ) : String :=
  if 337.5 ≤ bearing ∨ bearing < 22.5 then "N"
  else if 22.5 ≤ bearing ∧ bearing < 67.5 then "NE"
  else if 67.5 ≤ bearing ∧ bearing < 112.5 then "E"
  else if 112.5 ≤ bearing ∧ bearing < 157.5 then "SE"
  else if 157.5 ≤ bearing ∧ bearing < 202.5 then "S"
  else if 202.5 ≤ bearing ∧ bearing < 247.5 then "SW"
  else if 247.5 ≤ bearing ∧ bearing < 292.5 then "W"
  else if 292.5 ≤ bearing ∧ bearing < 337.5 then "NW"
  else "N"

/-- `GreatCircleCalculator::calculate_distance` (haversine formula). -/
noncomputable def calculate_distance (lat1 lon1 lat2 lon2 : ℝ) : ℝ :=
  let lat1_rad := to_radians lat1
  let lon1_rad := to_radians lon1
  let lat2_rad := to_radians lat2
  let lon2_rad := to_radians lon2
  let delta_lat := lat2_rad - lat1_rad
  let delta_lon := lon2_rad - lon1_rad
  let a := Real.sin (delta_lat / 2) ^ 2
    + Real.cos lat1_rad * Real.cos lat2_rad * Real.sin (delta_lon / 2) ^ 2
  let c := 2 * Real.arcsin (Real.sqrt a)
  EARTH_RADIUS_KM * c

/-- `f64::atan2 y x`, modelled as the argument of the complex number
`x + y*I` (range (-π, π], zero at the origin, as in IEEE `atan2`). -/
noncomputable def atan2 (y x : ℝ) : ℝ := Complex.arg ⟨x, y⟩

/-- `GreatCircleCalculator::calculate_qibla`. -/
noncomputable def calculate_qibla (location : Location) : QiblaDirection :=
  let lat1 := to_radians location.latitude
  let lon1 := to_radians location.longitude
  let lat2 := to_radians KAABA_LATITUDE
  let lon2 := to_radians KAABA_LONGITUDE
  let delta_lon := lon2 - lon1
  let y := Real.sin delta_lon * Real.cos lat2
  let x := Real.cos lat1 * Real.sin lat2 -
    Real.sin lat1 * Real.cos lat2 * Real.cos delta_lon
  let bearing := to_degrees (atan2 y x)
  let normalized_bearing := normalize_bearing bearing
  let distance := calculate_distance location.latitude location.longitude
    KAABA_LATITUDE KAABA_LONGITUDE
  { bearing := normalized_bearing
    direction := bearing_to_direction normalized_bearing
    distance_km := distance }

/-- The `compass_directions` array from `calculate_compass_table`. -/
noncomputable def compass_directions : List (String × ℝ) :=
  [("N", 0), ("NNE", 22.5), ("NE", 45), ("ENE", 67.5),
   ("E", 90), ("ESE", 112.5), ("SE", 135), ("SSE", 157.5),
   ("S", 180), ("SSW", 202.5), ("SW", 225), ("WSW", 247.5),
   ("W", 270), ("WNW", 292.5), ("NW", 315), ("NNW", 337.5)]

/-- The angular difference computed (twice) in `calculate_compass_table`:
`|heading - qibla.bearing|`, folded onto [0,180] by reflecting values
above 180. -/
noncomputable def angular_diff (qibla_bearing heading : ℝ) : ℝ :=
  let d := |heading - qibla_bearing|
  if d > 180 then 360 - d else d

/-- `f64::MAX`, the initial value of `min_angular_diff` in the first pass
of `calculate_compass_table`; exactly `(2 - 2⁻⁵²)·2¹⁰²³`. -/
noncomputable def F64_MAX : ℝ := 2 ^ (1024 : ℕ) - 2 ^ (971 : ℕ)

/-- One step of the first pass of `calculate_compass_table`: replace the
accumulated `(min_angular_diff, optimal_direction_name)` when this heading
is strictly closer to the qibla bearing. -/
noncomputable def first_pass_step (qibla_bearing : ℝ) (acc : ℝ × String)
    (p : String × ℝ) : ℝ × String :=
  if angular_diff qibla_bearing p.2 < acc.1 then
    (angular_diff qibla_bearing p.2, p.1)
  else acc

/-- The whole first pass of `calculate_compass_table`. -/
noncomputable def find_optimal (qibla_bearing : ℝ) : ℝ × String :=
  compass_directions.foldl (first_pass_step qibla_bearing) (F64_MAX, "")

/-- One entry built by the second pass of `calculate_compass_table`. -/
noncomputable def make_entry (qibla : QiblaDirection)
    (optimal_direction_name : String) (p : String × ℝ) : CompassEntry :=
  let angular_diff_v := angular_diff qibla.bearing p.2
  let short_distance :=
    if angular_diff_v < 90 then
      qibla.distance_km / max (Real.cos (angular_diff_v * π / 180)) 0.001
    else if angular_diff_v > 90 then
      EARTH_RADIUS_KM * 2 * π - qibla.distance_km
    else
      EARTH_RADIUS_KM * 2 * π
  let long_distance := EARTH_RADIUS_KM * 2 * π - qibla.distance_km
  { direction := p.1
    bearing := p.2
    angular_difference := angular_diff_v
    short_path_distance_km := short_distance
    long_path_distance_km := long_distance
    is_optimal_direction := p.1 == optimal_direction_name }

/-- `GreatCircleCalculator::calculate_compass_table`. -/
noncomputable def calculate_compass_table (location : Location) : CompassTable :=
  let qibla := calculate_qibla location
  let optimal := find_optimal qibla.bearing
  { location := location
    qibla_bearing := qibla.bearing
    direct_distance_km := qibla.distance_km
    entries := compass_directions.map (make_entry qibla optimal.2) }

/-! ### Basic lemmas about the normalization -/

/-- The result of `normalize_bearing` always lies in [0, 360). -/
theorem normalize_bearing_mem (b : ℝ) :
    0 ≤ normalize_bearing b ∧ normalize_bearing b < 360 := by
  simp only [normalize_bearing, frem, rtrunc]
  by_cases hb : 0 ≤ b / 360
  · rw [if_pos hb]
    have h1 : (⌊b / 360⌋ : ℝ) * 360 ≤ b := by
      have h := Int.floor_le (b / 360)
      rwa [le_div_iff₀ (by norm_num : (0:ℝ) < 360)] at h
    have h2 : b < ((⌊b / 360⌋ : ℝ) + 1) * 360 := by
      have h := Int.lt_floor_add_one (b / 360)
      rwa [div_lt_iff₀ (by norm_num : (0:ℝ) < 360)] at h
    rw [if_neg (by push_neg; nlinarith)]
    constructor <;> nlinarith
  · rw [if_neg hb]
    have h1 : b ≤ (⌈b / 360⌉ : ℝ) * 360 := by
      have h := Int.le_ceil (b / 360)
      rwa [div_le_iff₀ (by norm_num : (0:ℝ) < 360)] at h
    have h2 : ((⌈b / 360⌉ : ℝ) - 1) * 360 < b := by
      have h := Int.ceil_lt_add_one (b / 360)
      have h3 : (⌈b / 360⌉ : ℝ) - 1 < b / 360 := by linarith
      rwa [lt_div_iff₀ (by norm_num : (0:ℝ) < 360)] at h3
    by_cases h : b - 360 * (⌈b / 360⌉ : ℝ) < 0
    · rw [if_pos h]
      constructor <;> nlinarith
    · rw [if_neg h]
      push_neg at h
      constructor <;> nlinarith

/-- The bearing field of `calculate_qibla` is a normalized bearing. -/
theorem calculate_qibla_bearing_mem (loc : Location) :
    0 ≤ (calculate_qibla loc).bearing ∧ (calculate_qibla loc).bearing < 360 :=
  normalize_bearing_mem _

/-- C1: for every Location with latitude in [-90,90] and longitude in
[-180,180], `calculate_qibla(location).bearing` lies in the half-open
interval [0, 360): the normalization (truncated remainder by 360, plus 360
when negative) never yields a value below 0 or at/above 360. -/
theorem C1_calculate_qibla_bearing_range (loc : Location)
    (hlat : -90 ≤ loc.latitude ∧ loc.latitude ≤ 90)
    (hlon : -180 ≤ loc.longitude ∧ loc.longitude ≤ 180) :
    0 ≤ (calculate_qibla loc).bearing ∧ (calculate_qibla loc).bearing < 360 :=
  calculate_qibla_bearing_mem loc

/-- C1 witness: the bearing range theorem applied at the origin. -/
theorem C1_calculate_qibla_bearing_range_witness :
    0 ≤ (calculate_qibla ⟨0, 0⟩).bearing ∧ (calculate_qibla ⟨0, 0⟩).bearing < 360 :=
  C1_calculate_qibla_bearing_range ⟨0, 0⟩ (by norm_num) (by norm_num)

/-! ### Distance (C7) -/

/-- The haversine distance is nonnegative for arbitrary real inputs:
`arcsin` of a (nonnegative) square root is nonnegative. -/
theorem calculate_distance_nonneg (lat1 lon1 lat2 lon2 : ℝ) :
    0 ≤ calculate_distance lat1 lon1 lat2 lon2 := by
  simp only [calculate_distance, EARTH_RADIUS_KM]
  have h : 0 ≤ Real.arcsin (Real.sqrt
      (Real.sin ((to_radians lat2 - to_radians lat1) / 2) ^ 2 +
        Real.cos (to_radians lat1) * Real.cos (to_radians lat2) *
          Real.sin ((to_radians lon2 - to_radians lon1) / 2) ^ 2)) :=
    Real.arcsin_nonneg.mpr (Real.sqrt_nonneg _)
  nlinarith

/-- C7: for every Location with latitude in [-90,90] and longitude in
[-180,180], the distance field of `calculate_qibla`, computed by the
haversine formula `6371 * (2 * asin (sqrt a))`, is nonnegative (a
well-defined real number, never below zero). -/
theorem C7_calculate_qibla_distance_nonneg (loc : Location)
    (hlat : -90 ≤ loc.latitude ∧ loc.latitude ≤ 90)
    (hlon : -180 ≤ loc.longitude ∧ loc.longitude ≤ 180) :
    0 ≤ (calculate_qibla loc).distance_km := by
  simp only [calculate_qibla]
  exact calculate_distance_nonneg loc.latitude loc.longitude
    KAABA_LATITUDE KAABA_LONGITUDE

/-- C7 witness: nonnegative distance at the origin. -/
theorem C7_calculate_qibla_distance_nonneg_witness :
    0 ≤ (calculate_qibla ⟨0, 0⟩).distance_km :=
  C7_calculate_qibla_distance_nonneg ⟨0, 0⟩ (by norm_num) (by norm_num)

/-! ### Bearing classification (C6) -/

/-- C6 counterexample: the code classifies the bearing 337.5 as "N" (the
first match arm is `b >= 337.5 || b < 22.5`), not as "NW" as the claim
states. -/
theorem C6_boundary_counterexample :
    bearing_to_direction (337.5 : ℝ) = "N" ∧
    bearing_to_direction (337.5 : ℝ) ≠ "NW" := by
  have h : bearing_to_direction (337.5 : ℝ) = "N" := by
    unfold bearing_to_direction
    rw [if_pos (Or.inl (by norm_num))]
  exact ⟨h, by rw [h]; decide⟩

/-- C6 (amended): the boundary test vectors as the code actually behaves:
bearing 0.0 classifies as "N", 22.5 as "NE", 337.4999 as "NW" (it is
below the 337.5 wraparound threshold, inside the [292.5, 337.5) NW
sector), and 337.5 exactly as "N" (the N arm `b >= 337.5 || b < 22.5`
matches it first). -/
theorem C6_boundary_classification :
    bearing_to_direction (0 : ℝ) = "N" ∧
    bearing_to_direction (22.5 : ℝ) = "NE" ∧
    bearing_to_direction (337.4999 : ℝ) = "NW" ∧
    bearing_to_direction (337.5 : ℝ) = "N" := by
  refine ⟨?_, ?_, ?_, ?_⟩ <;> unfold bearing_to_direction
  · rw [if_pos (Or.inr (by norm_num))]
  · rw [if_neg (by norm_num), if_pos (by norm_num)]
  · rw [if_neg (by norm_num), if_neg (by norm_num), if_neg (by norm_num),
      if_neg (by norm_num), if_neg (by norm_num), if_neg (by norm_num),
      if_neg (by norm_num), if_pos (by norm_num)]
  · rw [if_pos (Or.inl (by norm_num))]

/-! ### The reference point itself (C10) -/

/-- `atan2` at the origin is 0, as for IEEE `f64::atan2(0.0, 0.0)`. -/
theorem atan2_zero_zero : atan2 0 0 = 0 := by
  unfold atan2
  have h : (⟨0, 0⟩ : ℂ) = 0 := Complex.ext (by simp) (by simp)
  rw [h, Complex.arg_zero]

/-- Degree conversion maps 0 to 0. -/
theorem to_degrees_zero : to_degrees 0 = 0 := by
  simp [to_degrees]

/-- Normalizing the bearing 0 gives 0. -/
theorem normalize_bearing_zero : normalize_bearing 0 = 0 := by
  norm_num [normalize_bearing, frem, rtrunc]

/-- The bearing 0 classifies as "N". -/
theorem bearing_to_direction_zero : bearing_to_direction 0 = "N" := by
  unfold bearing_to_direction
  rw [if_pos (Or.inr (by norm_num))]

/-- `cos·sin - sin·cos` cancels (the `x` term of the bearing formula at
zero longitude difference and equal latitudes). -/
theorem cos_sin_cancel (t : ℝ) :
    Real.cos t * Real.sin t - Real.sin t * Real.cos t * 1 = 0 := by ring

/-- C10: `calculate_qibla` applied to the reference point Location
{latitude 21.4225, longitude 39.8262} returns bearing exactly 0 (both
`y` and `x` in the bearing formula vanish and atan2(0,0) = 0) and
direction "N". -/
theorem C10_calculate_qibla_at_kaaba :
    (calculate_qibla ⟨21.4225, 39.8262⟩).bearing = 0 ∧
    (calculate_qibla ⟨21.4225, 39.8262⟩).direction = "N" := by
  constructor <;>
    simp only [calculate_qibla, KAABA_LATITUDE, KAABA_LONGITUDE, sub_self,
      Real.sin_zero, Real.cos_zero, zero_mul, cos_sin_cancel, atan2_zero_zero,
      to_degrees_zero, normalize_bearing_zero, bearing_to_direction_zero]

/-! ### The compass table: angular differences and the first pass -/

/-- `180 < f64::MAX`: every angular difference beats the initial
accumulator of the first pass. -/
theorem lt_F64_MAX : (180 : ℝ) < F64_MAX := by norm_num [F64_MAX]

/-- For a normalized qibla bearing and a compass heading within [0, 360),
the angular difference lies in [0, 180]. -/
theorem angular_diff_bounds (q b : ℝ) (hq0 : 0 ≤ q) (hq1 : q < 360)
    (hb0 : 0 ≤ b) (hb1 : b < 360) :
    0 ≤ angular_diff q b ∧ angular_diff q b ≤ 180 := by
  simp only [angular_diff]
  have habs : |b - q| < 360 := abs_sub_lt_iff.mpr ⟨by linarith, by linarith⟩
  by_cases h : |b - q| > 180
  · rw [if_pos h]
    constructor <;> linarith
  · rw [if_neg h]
    exact ⟨abs_nonneg _, not_lt.mp h⟩

/-- Every heading in the compass array lies in [0, 360). -/
theorem compass_directions_snd_mem :
    ∀ p ∈ compass_directions, 0 ≤ p.2 ∧ p.2 < 360 := by
  intro p hp
  simp only [compass_directions, List.mem_cons, List.not_mem_nil, or_false] at hp
  rcases hp with rfl|rfl|rfl|rfl|rfl|rfl|rfl|rfl|rfl|rfl|rfl|rfl|rfl|rfl|rfl|rfl <;>
    norm_num

/-- The direction names in the compass array are pairwise distinct. -/
theorem compass_directions_fst_nodup :
    (compass_directions.map Prod.fst).Nodup := by
  simp only [compass_directions, List.map_cons, List.map_nil]
  decide

/-- If no element of the list improves on the accumulated minimum, the
first pass leaves the accumulator unchanged. -/
theorem foldl_first_pass_const (q : ℝ) :
    ∀ (l : List (String × ℝ)) (m : ℝ) (n : String),
      (∀ p ∈ l, ¬ angular_diff q p.2 < m) →
      l.foldl (first_pass_step q) (m, n) = (m, n) := by
  intro l
  induction l with
  | nil => intro m n _; rfl
  | cons p t ih =>
    intro m n h
    have hstep : first_pass_step q (m, n) p = (m, n) :=
      if_neg (h p (List.mem_cons_self p t))
    rw [List.foldl_cons, hstep]
    exact ih m n fun p2 hp2 => h p2 (List.mem_cons_of_mem _ hp2)

/-- Characterization of the first pass of `calculate_compass_table`: as
soon as some element beats the initial accumulator, the fold returns the
name and angular difference of the first element attaining the minimal
angular difference (strict-`<` update keeps the earliest minimizer). -/
theorem foldl_first_pass_spec (q : ℝ) :
    ∀ (l : List (String × ℝ)) (m : ℝ) (n : String),
      (∃ p ∈ l, angular_diff q p.2 < m) →
      ∃ i : Fin l.length,
        (l.foldl (first_pass_step q) (m, n)).2 = (l.get i).1 ∧
        (l.foldl (first_pass_step q) (m, n)).1 = angular_diff q (l.get i).2 ∧
        (∀ p ∈ l, angular_diff q (l.get i).2 ≤ angular_diff q p.2) ∧
        angular_diff q (l.get i).2 < m ∧
        (∀ j : Fin l.length, (j : ℕ) < (i : ℕ) →
          angular_diff q (l.get i).2 < angular_diff q (l.get j).2) := by
  intro l
  induction l with
  | nil => intro m n h; simp at h
  | cons p t ih =>
    intro m n hex
    by_cases hp : angular_diff q p.2 < m
    · have hstep : first_pass_step q (m, n) p = (angular_diff q p.2, p.1) :=
        if_pos hp
      by_cases ht : ∃ p2 ∈ t, angular_diff q p2.2 < angular_diff q p.2
      · obtain ⟨i, h1, h2, h3, h4, h5⟩ := ih (angular_diff q p.2) p.1 ht
        refine ⟨⟨i.1 + 1, Nat.succ_lt_succ i.2⟩, ?_, ?_, ?_, ?_, ?_⟩
        · rw [List.foldl_cons, hstep]
          simp only [List.get_cons_succ]
          exact h1
        · rw [List.foldl_cons, hstep]
          simp only [List.get_cons_succ]
          exact h2
        · intro p3 hp3
          simp only [List.get_cons_succ]
          rcases List.mem_cons.mp hp3 with rfl | hm3
          · exact le_of_lt h4
          · exact h3 p3 hm3
        · simp only [List.get_cons_succ]
          exact lt_trans h4 hp
        · intro j hj
          rcases j with ⟨jv, hjlt⟩
          cases jv with
          | zero =>
            simp only [List.get_cons_zero, List.get_cons_succ]
            exact h4
          | succ jv2 =>
            simp only [List.get_cons_succ]
            exact h5 ⟨jv2, Nat.lt_of_succ_lt_succ hjlt⟩ (Nat.lt_of_succ_lt_succ hj)
      · push_neg at ht
        have hkeep : t.foldl (first_pass_step q) (angular_diff q p.2, p.1) =
            (angular_diff q p.2, p.1) :=
          foldl_first_pass_const q t _ _ fun p2 hp2 => not_lt.mpr (ht p2 hp2)
        refine ⟨⟨0, Nat.succ_pos _⟩, ?_, ?_, ?_, ?_, ?_⟩
        · rw [List.foldl_cons, hstep, hkeep]
          rfl
        · rw [List.foldl_cons, hstep, hkeep]
          rfl
        · intro p3 hp3
          rcases List.mem_cons.mp hp3 with rfl | hm3
          · exact le_refl _
          · exact ht p3 hm3
        · exact hp
        · intro j hj
          exact absurd hj (Nat.not_lt_zero _)
    · have hstep : first_pass_step q (m, n) p = (m, n) := if_neg hp
      obtain ⟨p2, hp2, hlt⟩ := hex
      have hmem : p2 ∈ t := by
        rcases List.mem_cons.mp hp2 with rfl | h
        · exact absurd hlt hp
        · exact h
      obtain ⟨i, h1, h2, h3, h4, h5⟩ := ih m n ⟨p2, hmem, hlt⟩
      refine ⟨⟨i.1 + 1, Nat.succ_lt_succ i.2⟩, ?_, ?_, ?_, ?_, ?_⟩
      · rw [List.foldl_cons, hstep]
        simp only [List.get_cons_succ]
        exact h1
      · rw [List.foldl_cons, hstep]
        simp only [List.get_cons_succ]
        exact h2
      · intro p3 hp3
        simp only [List.get_cons_succ]
        rcases List.mem_cons.mp hp3 with rfl | hm3
        · exact le_of_lt (lt_of_lt_of_le h4 (not_lt.mp hp))
        · exact h3 p3 hm3
      · simp only [List.get_cons_succ]
        exact h4
      · intro j hj
        rcases j with ⟨jv, hjlt⟩
        cases jv with
        | zero =>
          simp only [List.get_cons_zero, List.get_cons_succ]
          exact lt_of_lt_of_le h4 (not_lt.mp hp)
        | succ jv2 =>
          simp only [List.get_cons_succ]
          exact h5 ⟨jv2, Nat.lt_of_succ_lt_succ hjlt⟩ (Nat.lt_of_succ_lt_succ hj)

/-- The first pass returns the name and difference of the first heading
with globally minimal angular difference. -/
theorem find_optimal_spec (q : ℝ) (hq0 : 0 ≤ q) (hq1 : q < 360) :
    ∃ i : Fin compass_directions.length,
      (find_optimal q).2 = (compass_directions.get i).1 ∧
      (find_optimal q).1 = angular_diff q (compass_directions.get i).2 ∧
      (∀ p ∈ compass_directions,
        angular_diff q (compass_directions.get i).2 ≤ angular_diff q p.2) ∧
      ∀ j : Fin compass_directions.length, (j : ℕ) < (i : ℕ) →
        angular_diff q (compass_directions.get i).2 <
          angular_diff q (compass_directions.get j).2 := by
  have hex : ∃ p ∈ compass_directions, angular_diff q p.2 < F64_MAX := by
    refine ⟨("N", 0), by simp [compass_directions], ?_⟩
    have h := angular_diff_bounds q 0 hq0 hq1 le_rfl (by norm_num)
    calc angular_diff q ((("N", (0:ℝ))).2) = angular_diff q 0 := rfl
      _ ≤ 180 := h.2
      _ < F64_MAX := lt_F64_MAX
  obtain ⟨i, h1, h2, h3, _, h5⟩ :=
    foldl_first_pass_spec q compass_directions F64_MAX "" hex
  exact ⟨i, h1, h2, h3, h5⟩

/-! ### Bridging the table to the compass array -/

/-- The winning direction name of the first pass. -/
noncomputable def opt_name (loc : Location) : String :=
  (find_optimal (calculate_qibla loc).bearing).2

/-- The entries of the table are the compass array mapped through
`make_entry`. -/
theorem table_entries_eq (loc : Location) :
    (calculate_compass_table loc).entries =
      compass_directions.map (make_entry (calculate_qibla loc) (opt_name loc)) := rfl

/-- The table's direct distance is the qibla distance. -/
theorem table_direct_eq (loc : Location) :
    (calculate_compass_table loc).direct_distance_km =
      (calculate_qibla loc).distance_km := rfl

/-- Field equation for `make_entry`: angular difference. -/
theorem make_entry_angular (qibla : QiblaDirection) (nm : String) (p : String × ℝ) :
    (make_entry qibla nm p).angular_difference =
      angular_diff qibla.bearing p.2 := rfl

/-- Field equation for `make_entry`: optimality flag. -/
theorem make_entry_optimal (qibla : QiblaDirection) (nm : String) (p : String × ℝ) :
    (make_entry qibla nm p).is_optimal_direction = (p.1 == nm) := rfl

/-- Field equation for `make_entry`: fixed heading. -/
theorem make_entry_bearing (qibla : QiblaDirection) (nm : String) (p : String × ℝ) :
    (make_entry qibla nm p).bearing = p.2 := rfl

/-- Field equation for `make_entry`: short-path distance. -/
theorem make_entry_short (qibla : QiblaDirection) (nm : String) (p : String × ℝ) :
    (make_entry qibla nm p).short_path_distance_km =
      if angular_diff qibla.bearing p.2 < 90 then
        qibla.distance_km /
          max (Real.cos (angular_diff qibla.bearing p.2 * π / 180)) 0.001
      else if angular_diff qibla.bearing p.2 > 90 then
        EARTH_RADIUS_KM * 2 * π - qibla.distance_km
      else EARTH_RADIUS_KM * 2 * π := rfl

/-- Field equation for `make_entry`: long-path distance. -/
theorem make_entry_long (qibla : QiblaDirection) (nm : String) (p : String × ℝ) :
    (make_entry qibla nm p).long_path_distance_km =
      EARTH_RADIUS_KM * 2 * π - qibla.distance_km := rfl

/-- `get` through `map`, with an explicitly transported index. -/
theorem get_map_fin {α β : Type} (f : α → β) (l : List α)
    (k : Fin (l.map f).length) (k2 : Fin l.length) (hk : (k : ℕ) = (k2 : ℕ)) :
    (l.map f).get k = f (l.get k2) := by
  rcases k with ⟨kv, h1⟩
  rcases k2 with ⟨kv2, h2⟩
  cases hk
  rw [List.get_eq_getElem, List.get_eq_getElem]
  exact List.getElem_map f

/-- The code's constant `2πR` rewritten in the spec's order. -/
theorem earth_circumference_eq : EARTH_RADIUS_KM * 2 * π = 2 * π * 6371 := by
  simp only [EARTH_RADIUS_KM]
  ring

/-! ### Claims C2-C5 about the compass table -/

/-- C2: for every valid Location, exactly one entry of the compass table
has `is_optimal_direction = true`; any marked entry attains the minimum
angular difference over all 16 entries and is the first minimizer in
heading (insertion) order: every earlier entry has strictly larger
angular difference. -/
theorem C2_optimal_unique_min (loc : Location)
    (hlat : -90 ≤ loc.latitude ∧ loc.latitude ≤ 90)
    (hlon : -180 ≤ loc.longitude ∧ loc.longitude ≤ 180) :
    ((calculate_compass_table loc).entries.filter
        (fun e => e.is_optimal_direction)).length = 1 ∧
    ∀ i : Fin (calculate_compass_table loc).entries.length,
      ((calculate_compass_table loc).entries.get i).is_optimal_direction = true →
      (∀ e ∈ (calculate_compass_table loc).entries,
        ((calculate_compass_table loc).entries.get i).angular_difference ≤
          e.angular_difference) ∧
      ∀ j : Fin (calculate_compass_table loc).entries.length, (j : ℕ) < (i : ℕ) →
        ((calculate_compass_table loc).entries.get i).angular_difference <
          ((calculate_compass_table loc).entries.get j).angular_difference := by
  have hq := calculate_qibla_bearing_mem loc
  obtain ⟨i0, ho1, ho2, ho3, ho5⟩ :=
    find_optimal_spec (calculate_qibla loc).bearing hq.1 hq.2
  constructor
  · rw [table_entries_eq loc, ← List.countP_eq_length_filter, List.countP_map]
    have hpred : ((fun e => e.is_optimal_direction) ∘
        make_entry (calculate_qibla loc) (opt_name loc)) =
        fun p => p.1 == opt_name loc := rfl
    rw [hpred]
    have hnm : opt_name loc = (compass_directions.get i0).1 := ho1
    rw [hnm]
    clear hpred hnm ho1 ho2 ho3 ho5
    fin_cases i0 <;> decide
  · intro i hopt
    have hlen : (calculate_compass_table loc).entries.length =
        compass_directions.length := by
      rw [table_entries_eq loc]
      exact List.length_map _ _
    have hik : (i : ℕ) < compass_directions.length := by
      rw [← hlen]
      exact i.2
    have hgeti : (calculate_compass_table loc).entries.get i =
        make_entry (calculate_qibla loc) (opt_name loc)
          (compass_directions.get ⟨i.1, hik⟩) :=
      get_map_fin _ _ i ⟨i.1, hik⟩ rfl
    have hname : (compass_directions.get ⟨i.1, hik⟩).1 =
        (compass_directions.get i0).1 := by
      have h1 : ((compass_directions.get ⟨i.1, hik⟩).1 == opt_name loc) = true := by
        rw [← make_entry_optimal (calculate_qibla loc), ← hgeti]
        exact hopt
      have h2 : (compass_directions.get ⟨i.1, hik⟩).1 = opt_name loc :=
        beq_iff_eq.mp h1
      exact h2.trans ho1
    have hh1 : i.1 < (compass_directions.map Prod.fst).length := by
      simpa using hik
    have hh2 : i0.1 < (compass_directions.map Prod.fst).length := by
      simpa using i0.2
    have hgets : (compass_directions.map Prod.fst).get ⟨i.1, hh1⟩ =
        (compass_directions.map Prod.fst).get ⟨i0.1, hh2⟩ := by
      rw [get_map_fin Prod.fst compass_directions ⟨i.1, hh1⟩ ⟨i.1, hik⟩ rfl,
        get_map_fin Prod.fst compass_directions ⟨i0.1, hh2⟩ i0 rfl]
      exact hname
    have hidx : i.1 = i0.1 :=
      congrArg Fin.val (compass_directions_fst_nodup.get_inj_iff.mp hgets)
    have hcdeq : compass_directions.get ⟨i.1, hik⟩ = compass_directions.get i0 := by
      congr 1
      exact Fin.ext hidx
    constructor
    · intro e he
      rw [table_entries_eq loc] at he
      obtain ⟨p, hp, rfl⟩ := List.mem_map.mp he
      rw [hgeti, make_entry_angular, make_entry_angular, hcdeq]
      exact ho3 p hp
    · intro j hj
      have hjk : (j : ℕ) < compass_directions.length := by
        rw [← hlen]
        exact j.2
      have hgetj : (calculate_compass_table loc).entries.get j =
          make_entry (calculate_qibla loc) (opt_name loc)
            (compass_directions.get ⟨j.1, hjk⟩) :=
        get_map_fin _ _ j ⟨j.1, hjk⟩ rfl
      rw [hgeti, hgetj, make_entry_angular, make_entry_angular, hcdeq]
      refine ho5 ⟨j.1, hjk⟩ ?_
      rw [← hidx]
      exact hj

/-- C2 witness: the uniqueness part of the optimality theorem at the
origin. -/
theorem C2_optimal_unique_min_witness :
    ((calculate_compass_table ⟨0, 0⟩).entries.filter
        (fun e => e.is_optimal_direction)).length = 1 :=
  (C2_optimal_unique_min ⟨0, 0⟩ (by norm_num) (by norm_num)).1

/-- C3: for every valid Location, the compass table has exactly 16
entries, their bearings are 0, 22.5, ..., 337.5 in strictly ascending
insertion order, and every angular difference lies in [0, 180]. -/
theorem C3_table_shape (loc : Location)
    (hlat : -90 ≤ loc.latitude ∧ loc.latitude ≤ 90)
    (hlon : -180 ≤ loc.longitude ∧ loc.longitude ≤ 180) :
    (calculate_compass_table loc).entries.length = 16 ∧
    (calculate_compass_table loc).entries.map (fun e => e.bearing) =
      [0, 22.5, 45, 67.5, 90, 112.5, 135, 157.5,
       180, 202.5, 225, 247.5, 270, 292.5, 315, 337.5] ∧
    List.Chain' (fun a b => a < b)
      ((calculate_compass_table loc).entries.map (fun e => e.bearing)) ∧
    ∀ e ∈ (calculate_compass_table loc).entries,
      0 ≤ e.angular_difference ∧ e.angular_difference ≤ 180 := by
  have hq := calculate_qibla_bearing_mem loc
  have hmapb : (calculate_compass_table loc).entries.map (fun e => e.bearing) =
      [0, 22.5, 45, 67.5, 90, 112.5, 135, 157.5,
       180, 202.5, 225, 247.5, 270, 292.5, 315, 337.5] := rfl
  refine ⟨rfl, hmapb, ?_, ?_⟩
  · rw [hmapb]
    norm_num [List.chain'_cons, List.chain'_singleton]
  · intro e he
    rw [table_entries_eq loc] at he
    obtain ⟨p, hp, rfl⟩ := List.mem_map.mp he
    rw [make_entry_angular]
    exact angular_diff_bounds _ _ hq.1 hq.2
      (compass_directions_snd_mem p hp).1 (compass_directions_snd_mem p hp).2

/-- C3 witness: the length part of the shape theorem at the origin. -/
theorem C3_table_shape_witness :
    (calculate_compass_table ⟨0, 0⟩).entries.length = 16 :=
  (C3_table_shape ⟨0, 0⟩ (by norm_num) (by norm_num)).1

/-- C4: for every valid Location and every compass entry, the short-path
distance follows the three-case policy on the angular difference versus
90 degrees: below 90 it is the direct distance divided by the cosine of
the angular difference (in radians) floored at 0.001; above 90 it is the
circumference 2π·6371 minus the direct distance; at exactly 90 it is the
full circumference 2π·6371. -/
theorem C4_short_path_cases (loc : Location)
    (hlat : -90 ≤ loc.latitude ∧ loc.latitude ≤ 90)
    (hlon : -180 ≤ loc.longitude ∧ loc.longitude ≤ 180) :
    ∀ e ∈ (calculate_compass_table loc).entries,
      (e.angular_difference < 90 →
        e.short_path_distance_km =
          (calculate_compass_table loc).direct_distance_km /
            max (Real.cos (e.angular_difference * π / 180)) 0.001) ∧
      (e.angular_difference > 90 →
        e.short_path_distance_km =
          2 * π * 6371 - (calculate_compass_table loc).direct_distance_km) ∧
      (e.angular_difference = 90 →
        e.short_path_distance_km = 2 * π * 6371) := by
  intro e he
  rw [table_entries_eq loc] at he
  obtain ⟨p, hp, rfl⟩ := List.mem_map.mp he
  rw [make_entry_angular, make_entry_short, table_direct_eq]
  refine ⟨?_, ?_, ?_⟩
  · intro h
    rw [if_pos h]
  · intro h
    rw [if_neg (not_lt.mpr (le_of_lt h)), if_pos h, earth_circumference_eq]
  · intro h
    rw [if_neg (by rw [h]; exact lt_irrefl _),
      if_neg (by rw [h]; exact lt_irrefl _), earth_circumference_eq]

/-- C4 witness: the case split evaluated entrywise at the origin. -/
theorem C4_short_path_cases_witness :
    ((calculate_compass_table ⟨0, 0⟩).entries.map
        (fun e => e.short_path_distance_km)) =
      ((calculate_compass_table ⟨0, 0⟩).entries.map (fun e =>
        if e.angular_difference < 90 then
          (calculate_compass_table ⟨0, 0⟩).direct_distance_km /
            max (Real.cos (e.angular_difference * π / 180)) 0.001
        else if e.angular_difference > 90 then
          2 * π * 6371 - (calculate_compass_table ⟨0, 0⟩).direct_distance_km
        else 2 * π * 6371)) := by
  apply List.map_congr_left
  intro e he
  obtain ⟨hlt, hgt, heq⟩ :=
    C4_short_path_cases ⟨0, 0⟩ (by norm_num) (by norm_num) e he
  by_cases h1 : e.angular_difference < 90
  · rw [if_pos h1]
    exact hlt h1
  · rw [if_neg h1]
    by_cases h2 : e.angular_difference > 90
    · rw [if_pos h2]
      exact hgt h2
    · rw [if_neg h2]
      exact heq (le_antisymm (not_lt.mp h2) (not_lt.mp h1))

/-- C5: for every valid Location, the long-path distance of every entry
equals 2π·6371 minus the table's direct distance (hence it is the same
value in all 16 entries). -/
theorem C5_long_path_constant (loc : Location)
    (hlat : -90 ≤ loc.latitude ∧ loc.latitude ≤ 90)
    (hlon : -180 ≤ loc.longitude ∧ loc.longitude ≤ 180) :
    ∀ e ∈ (calculate_compass_table loc).entries,
      e.long_path_distance_km =
        2 * π * 6371 - (calculate_compass_table loc).direct_distance_km := by
  intro e he
  rw [table_entries_eq loc] at he
  obtain ⟨p, hp, rfl⟩ := List.mem_map.mp he
  rw [make_entry_long, table_direct_eq, earth_circumference_eq]

/-- C5 witness: the long-path column at the origin is the constant
circumference minus direct distance. -/
theorem C5_long_path_constant_witness :
    ((calculate_compass_table ⟨0, 0⟩).entries.map
        (fun e => e.long_path_distance_km)) =
      ((calculate_compass_table ⟨0, 0⟩).entries.map (fun _ =>
        2 * π * 6371 - (calculate_compass_table ⟨0, 0⟩).direct_distance_km)) := by
  apply List.map_congr_left
  intro e he
  exact C5_long_path_constant ⟨0, 0⟩ (by norm_num) (by norm_num) e he

/-! ### The coordinate parser (src/geocoding.rs)

The parser deals with decimal text only; the values such text denotes are
exact rationals, so this part of the model is computable over ℚ. -/

/-- The `Location` produced by `parse_coordinates`.  The Rust struct
stores `f64`; the parsed decimal text denotes exact rational values, so
the parser model carries them as ℚ. -/
structure LocationRat where
  latitude : ℚ
  longitude : ℚ
deriving DecidableEq

/-- Numeric value of a digit string, most significant digit first. -/
def natOfDigits (l : List Char) : ℕ :=
  l.foldl (fun n c => 10 * n + (c.toNat - 48)) 0

/-- Mantissa of the Rust float grammar: `Digit+ '.'? Digit*` or
`'.' Digit+`, as an exact rational. -/
def parseMantissa (cs : List Char) : Option ℚ :=
  let intPart := cs.takeWhile Char.isDigit
  let rest := cs.dropWhile Char.isDigit
  match rest with
  | [] => if intPart = [] then none else some (natOfDigits intPart)
  | '.' :: rest2 =>
    let fracPart := rest2.takeWhile Char.isDigit
    let rest3 := rest2.dropWhile Char.isDigit
    if rest3 ≠ [] then none
    else if intPart = [] ∧ fracPart = [] then none
    else some ((natOfDigits intPart : ℚ) +
      (natOfDigits fracPart : ℚ) / 10 ^ fracPart.length)
  | _ => none

/-- Exponent tail of the Rust float grammar (after `e`/`E`):
`Sign? Digit+`. -/
def parseExponent (cs : List Char) : Option ℤ :=
  let sgn : ℤ := match cs with
    | '-' :: _ => -1
    | _ => 1
  let cs2 : List Char := match cs with
    | '+' :: r => r
    | '-' :: r => r
    | _ => cs
  if cs2 = [] ∨ ¬ cs2.all Char.isDigit then none
  else some (sgn * natOfDigits cs2)

/-- Modelled from the spec: the Rust standard library float parse used by
`parse_coordinates` (`str::parse::<f64>`), restricted to the spec's
"finite decimal number" inputs: `Sign? (Digit+ '.'? Digit* | '.' Digit+)
([eE] Sign? Digit+)?`, returning the exact rational value (the `inf` and
`nan` keywords, which never denote finite decimals, are outside the
model). -/
def parseF64 (cs : List Char) : Option ℚ :=
  let sign : ℚ := match cs with
    | '-' :: _ => -1
    | _ => 1
  let cs1 : List Char := match cs with
    | '+' :: r => r
    | '-' :: r => r
    | _ => cs
  let mant := cs1.takeWhile (fun c => !(c == 'e' || c == 'E'))
  let rest := cs1.dropWhile (fun c => !(c == 'e' || c == 'E'))
  match rest with
  | [] => (parseMantissa mant).map (fun m => sign * m)
  | _ :: expPart =>
    match parseMantissa mant, parseExponent expPart with
    | some m, some ex => some (sign * m * (10 : ℚ) ^ ex)
    | _, _ => none

/-- The Unicode White_Space property, the character class trimmed by
Rust `str::trim` (`char::is_whitespace`): U+0009..U+000D, U+0020,
U+0085, U+00A0, U+1680, U+2000..U+200A, U+2028, U+2029, U+202F, U+205F
and U+3000. -/
def isUnicodeWhitespace (c : Char) : Bool :=
  decide ((0x09 ≤ c.toNat ∧ c.toNat ≤ 0x0D) ∨ c.toNat = 0x20 ∨
    c.toNat = 0x85 ∨ c.toNat = 0xA0 ∨ c.toNat = 0x1680 ∨
    (0x2000 ≤ c.toNat ∧ c.toNat ≤ 0x200A) ∨ c.toNat = 0x2028 ∨
    c.toNat = 0x2029 ∨ c.toNat = 0x202F ∨ c.toNat = 0x205F ∨ c.toNat = 0x3000)

/-- Rust `str::trim`: strip Unicode-whitespace characters from both
ends. -/
def trimChars (cs : List Char) : List Char :=
  ((cs.dropWhile isUnicodeWhitespace).reverse.dropWhile isUnicodeWhitespace).reverse

/-- The full Rust `str::parse::<f64>()` call on a field, with the two
`ParseFloatError` variants and their `Display` messages: an empty input
yields the `Empty` variant ("cannot parse float from empty string"); any
other failed parse yields the `Invalid` variant ("invalid float
literal"). -/
def parseFloat (cs : List Char) : Except String ℚ :=
  if cs = [] then .error "cannot parse float from empty string"
  else
    match parseF64 cs with
    | some v => .ok v
    | none => .error "invalid float literal"

/-- `parse_coordinates` from src/geocoding.rs: split on `','`, require
exactly two fields, parse each trimmed field as a float (a failed parse
propagates the `ParseFloatError` message via `?`, the latitude field
first), then validate the latitude and longitude ranges. -/
def parse_coordinates (input : String) : Except String LocationRat :=
  match input.toList.splitOn ',' with
  | [p1, p2] =>
    match parseFloat (trimChars p1) with
    | .error e => .error e
    | .ok latitude =>
      match parseFloat (trimChars p2) with
      | .error e => .error e
      | .ok longitude =>
        if ¬(-90 ≤ latitude ∧ latitude ≤ 90) then
          .error "Latitude must be between -90 and 90 degrees"
        else if ¬(-180 ≤ longitude ∧ longitude ≤ 180) then
          .error "Longitude must be between -180 and 180 degrees"
        else .ok ⟨latitude, longitude⟩
  | _ => .error "Expected format: latitude,longitude"

/-- Unfolding `parse_coordinates` when the split has exactly two fields. -/
theorem parse_coordinates_eq_two (input : String) (p1 p2 : List Char)
    (h : input.toList.splitOn ',' = [p1, p2]) :
    parse_coordinates input =
      match parseFloat (trimChars p1) with
      | .error e => .error e
      | .ok latitude =>
        match parseFloat (trimChars p2) with
        | .error e => .error e
        | .ok longitude =>
          if ¬(-90 ≤ latitude ∧ latitude ≤ 90) then
            .error "Latitude must be between -90 and 90 degrees"
          else if ¬(-180 ≤ longitude ∧ longitude ≤ 180) then
            .error "Longitude must be between -180 and 180 degrees"
          else .ok ⟨latitude, longitude⟩ := by
  unfold parse_coordinates
  rw [h]

/-- `parse_coordinates` rejects any split without exactly two fields. -/
theorem parse_coordinates_eq_bad (input : String)
    (h : (input.toList.splitOn ',').length ≠ 2) :
    parse_coordinates input = .error "Expected format: latitude,longitude" := by
  unfold parse_coordinates
  generalize hs : input.toList.splitOn ',' = parts
  rw [hs] at h
  rcases parts with _ | ⟨a, _ | ⟨b, _ | ⟨c, t⟩⟩⟩
  · rfl
  · rfl
  · exact absurd rfl h
  · rfl

/-- C8 counterexample: on a non-numeric field the parser propagates the
float-parse error via the `?` on `parts[i].trim().parse::<f64>()` — the
`Invalid` variant "invalid float literal" for "abc,0" and the `Empty`
variant "cannot parse float from empty string" for "1.0," — never the
claimed "expected format" message (which is produced only for a wrong
field count). -/
theorem C8_parse_counterexample :
    parse_coordinates "abc,0" = .error "invalid float literal" ∧
    parse_coordinates "abc,0" ≠ .error "Expected format: latitude,longitude" ∧
    parse_coordinates "1.0," = .error "cannot parse float from empty string" ∧
    parse_coordinates "1.0," ≠ .error "Expected format: latitude,longitude" := by
  have h1 : parse_coordinates "abc,0" = .error "invalid float literal" := rfl
  have h2 : parse_coordinates "1.0," =
      .error "cannot parse float from empty string" := rfl
  refine ⟨h1, ?_, h2, ?_⟩
  · rw [h1]
    simp
  · rw [h2]
    simp

/-- C8 (amended): `parse_coordinates` succeeds exactly on inputs that
split on ',' into two fields, each trimming (Unicode whitespace) to a
finite decimal number, with latitude in [-90,90] and longitude in
[-180,180]; a wrong field count fails with the "Expected format:
latitude,longitude" error; a field that fails to parse propagates its
`ParseFloatError` message — "cannot parse float from empty string" when
the trimmed field is empty, "invalid float literal" otherwise — with the
latitude field checked first; an out-of-range latitude or longitude
fails with the error naming the violated bound, latitude checked
first. -/
theorem C8_parse_coordinates_spec (input : String) :
    (∀ lat lon, parse_coordinates input = .ok ⟨lat, lon⟩ ↔
      (∃ p1 p2, input.toList.splitOn ',' = [p1, p2] ∧
        parseFloat (trimChars p1) = .ok lat ∧ parseFloat (trimChars p2) = .ok lon ∧
        -90 ≤ lat ∧ lat ≤ 90 ∧ -180 ≤ lon ∧ lon ≤ 180)) ∧
    ((input.toList.splitOn ',').length ≠ 2 →
      parse_coordinates input = .error "Expected format: latitude,longitude") ∧
    (∀ p1 p2 e, input.toList.splitOn ',' = [p1, p2] →
      (parseFloat (trimChars p1) = .error e ∨
        ((∃ lat, parseFloat (trimChars p1) = .ok lat) ∧
          parseFloat (trimChars p2) = .error e)) →
      parse_coordinates input = .error e) ∧
    (∀ cs : List Char,
      (cs = [] → parseFloat cs = .error "cannot parse float from empty string") ∧
      (cs ≠ [] → parseF64 cs = none → parseFloat cs = .error "invalid float literal")) ∧
    (∀ p1 p2 lat lon, input.toList.splitOn ',' = [p1, p2] →
      parseFloat (trimChars p1) = .ok lat → parseFloat (trimChars p2) = .ok lon →
      (¬(-90 ≤ lat ∧ lat ≤ 90) →
        parse_coordinates input =
          .error "Latitude must be between -90 and 90 degrees") ∧
      ((-90 ≤ lat ∧ lat ≤ 90) → ¬(-180 ≤ lon ∧ lon ≤ 180) →
        parse_coordinates input =
          .error "Longitude must be between -180 and 180 degrees")) := by
  refine ⟨?_, parse_coordinates_eq_bad input, ?_, ?_, ?_⟩
  · intro lat lon
    constructor
    · intro hok
      by_cases hlen : (input.toList.splitOn ',').length = 2
      · obtain ⟨p1, p2, hs⟩ := List.length_eq_two.mp hlen
        rw [parse_coordinates_eq_two input p1 p2 hs] at hok
        rcases hp1 : parseFloat (trimChars p1) with e2 | lat2
        · rw [hp1] at hok
          simp at hok
        · rcases hp2 : parseFloat (trimChars p2) with e2 | lon2
          · rw [hp1, hp2] at hok
            simp at hok
          · rw [hp1, hp2] at hok
            dsimp only at hok
            by_cases h1 : ¬(-90 ≤ lat2 ∧ lat2 ≤ 90)
            · rw [if_pos h1] at hok
              simp at hok
            · rw [if_neg h1] at hok
              by_cases h2 : ¬(-180 ≤ lon2 ∧ lon2 ≤ 180)
              · rw [if_pos h2] at hok
                simp at hok
              · rw [if_neg h2] at hok
                rw [not_not] at h1 h2
                have hinj := hok
                simp only [Except.ok.injEq, LocationRat.mk.injEq] at hinj
                obtain ⟨hlat2, hlon2⟩ := hinj
                subst hlat2
                subst hlon2
                exact ⟨p1, p2, hs, hp1, hp2, h1.1, h1.2, h2.1, h2.2⟩
      · rw [parse_coordinates_eq_bad input hlen] at hok
        simp at hok
    · rintro ⟨p1, p2, hs, hp1, hp2, h1, h2, h3, h4⟩
      rw [parse_coordinates_eq_two input p1 p2 hs, hp1, hp2]
      dsimp only
      rw [if_neg (not_not_intro ⟨h1, h2⟩), if_neg (not_not_intro ⟨h3, h4⟩)]
  · intro p1 p2 e hs hcase
    rw [parse_coordinates_eq_two input p1 p2 hs]
    rcases hcase with hl | ⟨⟨lat, hokl⟩, herr⟩
    · rw [hl]
    · rw [hokl]
      dsimp only
      rw [herr]
  · intro cs
    constructor
    · intro h
      rw [h]
      rfl
    · intro h1 h2
      unfold parseFloat
      rw [if_neg h1, h2]
  · intro p1 p2 lat lon hs hl hr
    rw [parse_coordinates_eq_two input p1 p2 hs, hl, hr]
    dsimp only
    constructor
    · intro hbad
      rw [if_pos hbad]
    · intro hok hbad2
      rw [if_neg (not_not_intro hok), if_pos hbad2]

/-- C8 witness: the malformed-format clause applied to the single-field
input "48.8566", and the error-propagation clause applied to "1.0,",
whose second field trims to the empty string. -/
theorem C8_parse_coordinates_spec_witness :
    parse_coordinates "48.8566" = .error "Expected format: latitude,longitude" ∧
    parse_coordinates "1.0," = .error "cannot parse float from empty string" :=
  ⟨(C8_parse_coordinates_spec "48.8566").2.1 (by decide),
   (C8_parse_coordinates_spec "1.0,").2.2.1 "1.0".toList [] _ (by decide)
     (Or.inr ⟨⟨_, rfl⟩, rfl⟩)⟩

/-! ### The FFI boundary (src/ffi.rs) -/

/-- `QiblaResult` from src/ffi.rs.  The two raw C string pointers are
modelled as `Option String`, with `none` standing for the null pointer. -/
structure QiblaResult where
  bearing : ℝ
  distance_km : ℝ
  direction : Option String
  success : Bool
  error_message : Option String

/-- The error message built by `calculate_qibla_ffi` for out-of-range
coordinates. -/
def INVALID_COORDS_MSG : String :=
  "Invalid coordinates: latitude must be between -90 and 90, longitude between -180 and 180"

/-- `calculate_qibla_ffi` from src/ffi.rs: validate both coordinates
against `(-90..=90)` and `(-180..=180)`, returning an error record
without computing anything when validation fails, and marshalling
`calculate_qibla`'s result otherwise.  (The `CString::new` failure branch
is unreachable — the produced direction strings contain no NUL byte — and
is not modelled.) -/
noncomputable def calculate_qibla_ffi (latitude longitude : ℝ) : QiblaResult :=
  if ¬(-90 ≤ latitude ∧ latitude ≤ 90) ∨ ¬(-180 ≤ longitude ∧ longitude ≤ 180) then
    { bearing := 0
      distance_km := 0
      direction := none
      success := false
      error_message := some INVALID_COORDS_MSG }
  else
    let qibla := calculate_qibla ⟨latitude, longitude⟩
    { bearing := qibla.bearing
      distance_km := qibla.distance_km
      direction := some qibla.direction
      success := true
      error_message := none }

/-- C9: `calculate_qibla_ffi` validates at the boundary: any latitude
outside [-90,90] or longitude outside [-180,180] yields success = false,
a non-null error message, bearing 0 and distance 0; any in-range pair
yields success = true with bearing, distance and direction equal to those
of `calculate_qibla` on that location. -/
theorem C9_ffi_validation (latitude longitude : ℝ) :
    ((latitude < -90 ∨ 90 < latitude ∨ longitude < -180 ∨ 180 < longitude) →
      (calculate_qibla_ffi latitude longitude).success = false ∧
      (calculate_qibla_ffi latitude longitude).error_message ≠ none ∧
      (calculate_qibla_ffi latitude longitude).bearing = 0 ∧
      (calculate_qibla_ffi latitude longitude).distance_km = 0) ∧
    ((-90 ≤ latitude ∧ latitude ≤ 90 ∧ -180 ≤ longitude ∧ longitude ≤ 180) →
      (calculate_qibla_ffi latitude longitude).success = true ∧
      (calculate_qibla_ffi latitude longitude).bearing =
        (calculate_qibla ⟨latitude, longitude⟩).bearing ∧
      (calculate_qibla_ffi latitude longitude).distance_km =
        (calculate_qibla ⟨latitude, longitude⟩).distance_km ∧
      (calculate_qibla_ffi latitude longitude).direction =
        some (calculate_qibla ⟨latitude, longitude⟩).direction) := by
  constructor
  · intro h
    have hcond : ¬(-90 ≤ latitude ∧ latitude ≤ 90) ∨
        ¬(-180 ≤ longitude ∧ longitude ≤ 180) := by
      rcases h with h | h | h | h
      · exact Or.inl fun hc => absurd hc.1 (not_le.mpr h)
      · exact Or.inl fun hc => absurd hc.2 (not_le.mpr h)
      · exact Or.inr fun hc => absurd hc.1 (not_le.mpr h)
      · exact Or.inr fun hc => absurd hc.2 (not_le.mpr h)
    have heq : calculate_qibla_ffi latitude longitude =
        { bearing := 0, distance_km := 0, direction := none,
          success := false, error_message := some INVALID_COORDS_MSG } :=
      if_pos hcond
    rw [heq]
    exact ⟨rfl, by simp, rfl, rfl⟩
  · intro h
    have hcond : ¬(¬(-90 ≤ latitude ∧ latitude ≤ 90) ∨
        ¬(-180 ≤ longitude ∧ longitude ≤ 180)) := by
      push_neg
      exact ⟨⟨h.1, h.2.1⟩, ⟨h.2.2.1, h.2.2.2⟩⟩
    have heq : calculate_qibla_ffi latitude longitude =
        { bearing := (calculate_qibla ⟨latitude, longitude⟩).bearing
          distance_km := (calculate_qibla ⟨latitude, longitude⟩).distance_km
          direction := some (calculate_qibla ⟨latitude, longitude⟩).direction
          success := true
          error_message := none } :=
      if_neg hcond
    rw [heq]
    exact ⟨rfl, rfl, rfl, rfl⟩

/-- C9 witness: the validation theorem applied at an out-of-range and an
in-range input. -/
theorem C9_ffi_validation_witness :
    (calculate_qibla_ffi 91 0).success = false ∧
    (calculate_qibla_ffi 0 0).success = true :=
  ⟨((C9_ffi_validation 91 0).1 (Or.inr (Or.inl (by norm_num)))).1,
   ((C9_ffi_validation 0 0).2 (by norm_num)).1⟩

end Meccz
